import Mathlib

/-!
Shallow embedding of the insta-clerky webhook automation pipeline.

The definitions below are translated from the TypeScript sources:
`src/services/automationService.ts` (the sequence-capable variant of
`AutomationService`), `src/services/webhookProcessor.ts`
(`processDirectMessage`, `processComment`, the echo skip in
`processWebhook`), `src/services/metaAPIService.ts` (send calls),
`src/controllers/webhookController.ts` (`verifyWebhook`, `handleWebhook`),
and the SQL migrations (`instagram_messages` / `instagram_comments`
uniqueness keys, the `instagram_automations_response_type_check`
constraint).  Database queries are modelled as pure functions on row
lists; external send calls are modelled through a boolean success oracle;
HTTP query parameters and JSON fields are modelled as strings / options.
-/

namespace InstaClerky

/-- Interaction kind of an automation / event: direct message or comment.
Mirrors the `type` column check `type IN ('dm', 'comment')`. -/
inductive InteractionType
  | dm
  | comment
deriving DecidableEq

/-- Trigger kind: keyword set or match-all.
Mirrors `trigger_type IN ('keyword', 'all')`. -/
inductive TriggerType
  | keyword
  | all
deriving DecidableEq

/-- Response kind.  The database constraint
`instagram_automations_response_type_check` (after the comment-and-DM
migration) permits `'direct'`, `'comment'` and `'comment_and_dm'`. -/
inductive ResponseType
  | direct
  | comment
  | comment_and_dm
deriving DecidableEq

/-- Step kind of one `ResponseSequenceItem` (`'text' | 'image' | 'video' |
'audio'` in the source; the audio constructor carries a `File` suffix here
only because of Lean naming conventions used in this development). -/
inductive StepType
  | text
  | image
  | video
  | audioFile
deriving DecidableEq

/-- One step of a response sequence, from `automationService.ts`:
`type`, `content` (text or media URL) and `delay` in whole seconds. -/
structure ResponseSequenceItem where
  type : StepType
  content : String
  delay : Nat
deriving DecidableEq

/-- An automation row, from the `Automation` interface of the
sequence-capable `automationService.ts` (`created_at` is modelled as a
natural number so that the `ORDER BY created_at DESC` contract can be
stated). -/
structure Automation where
  id : Nat
  type : InteractionType
  triggerType : TriggerType
  keywords : List String
  responseText : String
  responseType : ResponseType
  responseSequence : Option (List ResponseSequenceItem)
  createdAt : Nat
  isActive : Bool
deriving DecidableEq

/-- Does the character list `hay` start with `needle`? -/
def listStartsWith : List Char → List Char → Bool
  | _, [] => true
  | [], _ :: _ => false
  | c :: cs, d :: ds => c == d && listStartsWith cs ds

/-- Substring containment on character lists; the model of JavaScript
`String.prototype.includes`. -/
def containsSub : List Char → List Char → Bool
  | [], needle => needle.isEmpty
  | c :: cs, needle => listStartsWith (c :: cs) needle || containsSub cs needle

/-- Case-folded keyword test, from `findMatchingAutomation`:
`lowerText.includes(keyword.toLowerCase())` for some keyword. -/
def keywordHit (keywords : List String) (text : String) : Bool :=
  let lowerText := text.data.map Char.toLower
  keywords.any fun k => containsSub lowerText (k.data.map Char.toLower)

/-- Whether one automation matches the event text: match-all matches
immediately, keyword-set matches iff some keyword hits case-insensitively.
This is the per-rule test done inside the scan loop of
`findMatchingAutomation`. -/
def automationMatches (a : Automation) (text : String) : Bool :=
  match a.triggerType with
  | .all => true
  | .keyword => keywordHit a.keywords text

/-- The scan loop of `findMatchingAutomation`: return the first automation
in the list whose trigger matches the text. -/
def scanForMatch : List Automation → String → Option Automation
  | [], _ => none
  | a :: rest, text =>
    match a.triggerType with
    | .all => some a
    | .keyword =>
      if keywordHit a.keywords text then some a else scanForMatch rest text

/-- Insert an automation into a list kept in creation-time-descending
order (insertion step of the model of `ORDER BY created_at DESC`). -/
def insertDesc (a : Automation) : List Automation → List Automation
  | [] => [a]
  | b :: rest =>
    if b.createdAt ≤ a.createdAt then a :: b :: rest else b :: insertDesc a rest

/-- Sort automations by creation time, most recent first (the model of
`ORDER BY created_at DESC` in `getActiveByInstance`). -/
def sortByCreatedDesc : List Automation → List Automation
  | [] => []
  | a :: rest => insertDesc a (sortByCreatedDesc rest)

/-- `AutomationService.getActiveByInstance`: the active rows of the
instance's automation table, ordered by creation time descending. -/
def getActiveByInstance (table : List Automation) : List Automation :=
  sortByCreatedDesc (table.filter fun a => a.isActive)

/-- `AutomationService.findMatchingAutomation`: fetch the active rules,
filter to the event's interaction kind, and return the first match in
scan order (or none). -/
def findMatchingAutomation (table : List Automation) (ty : InteractionType)
    (text : String) : Option Automation :=
  scanForMatch ((getActiveByInstance table).filter fun a => a.type == ty) text

/-- Response status of a report row:
`response_status IN ('pending', 'sent', 'failed')`. -/
inductive RespStatus
  | pending
  | sent
  | failed
deriving DecidableEq

/-- A row of `instagram_messages` (the fields relevant to the pipeline;
uniqueness key is `(message_id, instance_id)`). -/
structure MessageRow where
  instanceId : String
  messageId : String
  senderId : String
  text : String
  replied : Bool
deriving DecidableEq

/-- A row of `instagram_comments` (uniqueness key is `comment_id`
alone). -/
structure CommentRow where
  instanceId : String
  commentId : String
  postId : String
  fromUserId : String
  fromUsername : String
  text : String
  replied : Bool
  replyText : Option String
deriving DecidableEq

/-- A row of `instagram_reports`, as written by `ReportService.create`
from the webhook processor. -/
structure Report where
  interactionType : InteractionType
  commentId : Option String
  userIdInstagram : String
  interactionText : String
  responseText : String
  responseStatus : RespStatus
deriving DecidableEq

/-- An outbound call to the Meta send API (`metaAPIService.ts`):
`sendDirectMessage(recipientId, text)` or
`replyToComment(commentId, text)`. -/
inductive SendCall
  | dm (recipientId : String) (text : String)
  | commentReply (commentId : String) (text : String)
deriving DecidableEq

/-- `INSERT ... ON CONFLICT (message_id, instance_id) DO NOTHING` on
`instagram_messages`: appending the row is a no-op when a row with the
same natural key already exists. -/
def insertMessageRow (table : List MessageRow) (r : MessageRow) :
    List MessageRow :=
  if table.any fun x => x.messageId == r.messageId && x.instanceId == r.instanceId
  then table
  else table ++ [r]

/-- `INSERT ... ON CONFLICT (comment_id) DO NOTHING` on
`instagram_comments`. -/
def insertCommentRow (table : List CommentRow) (r : CommentRow) :
    List CommentRow :=
  if table.any fun x => x.commentId == r.commentId then table
  else table ++ [r]

/-- `UPDATE instagram_messages SET replied = TRUE WHERE message_id = $1
AND instance_id = $2`. -/
def markMessageReplied (table : List MessageRow) (messageId instanceId : String) :
    List MessageRow :=
  table.map fun x =>
    if x.messageId == messageId && x.instanceId == instanceId
    then { x with replied := true } else x

/-- `UPDATE instagram_comments SET replied = TRUE, reply_text = $1 WHERE
comment_id = $2`. -/
def markCommentReplied (table : List CommentRow) (replyText commentId : String) :
    List CommentRow :=
  table.map fun x =>
    if x.commentId == commentId
    then { x with replied := true, replyText := some replyText } else x

/-- A normalized inbound messaging sub-event (`entry.messaging[i]`):
`sender.id` and `message.mid` are options because the processor bails out
when either is missing; `text` is `message.text || ''`; `isEcho` is
`message.is_echo`. -/
structure DMEvent where
  senderId : Option String
  mid : Option String
  text : String
  isEcho : Bool
  timestamp : Nat
deriving DecidableEq

/-- A normalized inbound comment change (`change.value`): `id` and `text`
are options because the processor bails out when either is missing. -/
structure CommentEvent where
  commentId : Option String
  text : Option String
  mediaId : Option String
  fromUserId : String
  fromUsername : String
deriving DecidableEq

/-- Observable outcome of processing one direct-message event: the
message table afterwards, the outbound send calls attempted (in order),
the report rows written (in order), and whether the matcher
(`findMatchingAutomation`) was invoked. -/
structure DMOutcome where
  messages : List MessageRow
  sends : List SendCall
  reports : List Report
  matcherCalled : Bool
deriving DecidableEq

/-- Observable outcome of processing one comment change. -/
structure CommentOutcome where
  comments : List CommentRow
  sends : List SendCall
  reports : List Report
  matcherCalled : Bool
deriving DecidableEq

/-- `processDirectMessage` from `webhookProcessor.ts`, as a pure function
of the automation table, the instance's access token (`none` models a
missing instance or missing token), the current message table, and a
boolean oracle `sendOk` giving the outcome of the at-most-one
`sendDirectMessage` call.  The send is attempted only when the matched
automation's `responseType === 'direct'`; on a throwing send the catch
block writes a `failed` report; otherwise a `sent` report is written and
the stored message is marked replied. -/
def processDirectMessage (autosTable : List Automation)
    (tokenOpt : Option String) (msgTable : List MessageRow)
    (instanceId : String) (ev : DMEvent) (sendOk : Bool) : DMOutcome :=
  match ev.senderId, ev.mid with
  | some senderId, some mid =>
    let messageText := ev.text
    let table1 := insertMessageRow msgTable
      ⟨instanceId, mid, senderId, messageText, false⟩
    match findMatchingAutomation autosTable .dm messageText with
    | none => ⟨table1, [], [], true⟩
    | some automation =>
      match tokenOpt with
      | none => ⟨table1, [], [], true⟩
      | some _ =>
        if automation.responseType == .direct then
          if sendOk then
            ⟨markMessageReplied table1 mid instanceId,
             [.dm senderId automation.responseText],
             [⟨.dm, none, senderId, messageText, automation.responseText, .sent⟩],
             true⟩
          else
            ⟨table1,
             [.dm senderId automation.responseText],
             [⟨.dm, none, senderId, messageText, automation.responseText, .failed⟩],
             true⟩
        else
          ⟨markMessageReplied table1 mid instanceId, [],
           [⟨.dm, none, senderId, messageText, automation.responseText, .sent⟩],
           true⟩
  | _, _ => ⟨msgTable, [], [], false⟩

/-- `processComment` from `webhookProcessor.ts`, as a pure function.  The
send call depends on the matched automation's `responseType`: `'comment'`
replies to the comment, `'direct'` sends a DM to the commenter, any other
value (the branches fall through) performs no send; the `sent` report and
the replied mark still follow, and a throwing send is answered by a
`failed` report in the catch block. -/
def processComment (autosTable : List Automation) (tokenOpt : Option String)
    (comTable : List CommentRow) (instanceId : String) (ev : CommentEvent)
    (sendOk : Bool) : CommentOutcome :=
  match ev.commentId, ev.text with
  | some commentId, some text =>
    let postId := ev.mediaId.getD ""
    let table1 := insertCommentRow comTable
      ⟨instanceId, commentId, postId, ev.fromUserId, ev.fromUsername, text,
       false, none⟩
    match findMatchingAutomation autosTable .comment text with
    | none => ⟨table1, [], [], true⟩
    | some automation =>
      match tokenOpt with
      | none => ⟨table1, [], [], true⟩
      | some _ =>
        let sends : List SendCall :=
          if automation.responseType == .comment then
            [.commentReply commentId automation.responseText]
          else if automation.responseType == .direct then
            [.dm ev.fromUserId automation.responseText]
          else []
        if sends.isEmpty || sendOk then
          ⟨markCommentReplied table1 automation.responseText commentId, sends,
           [⟨.comment, some commentId, ev.fromUserId, text,
             automation.responseText, .sent⟩],
           true⟩
        else
          ⟨table1, sends,
           [⟨.comment, some commentId, ev.fromUserId, text,
             automation.responseText, .failed⟩],
           true⟩
  | _, _ => ⟨comTable, [], [], false⟩

/-- The per-messaging-event body of the loop in `processWebhook`: a
messaging event flagged `message.is_echo` is skipped (`continue`) before
any processing; every other event goes through `processDirectMessage`. -/
def processMessagingEvent (autosTable : List Automation)
    (tokenOpt : Option String) (msgTable : List MessageRow)
    (instanceId : String) (ev : DMEvent) (sendOk : Bool) : DMOutcome :=
  if ev.isEcho then ⟨msgTable, [], [], false⟩
  else processDirectMessage autosTable tokenOpt msgTable instanceId ev sendOk

/-- An HTTP response of the webhook controller: status code plus body
(`none` models `res.sendStatus(403)`, which sends no echoed body). -/
structure HttpResponse where
  status : Nat
  body : Option String
deriving DecidableEq

/-- `verifyWebhook` from `webhookController.ts`: echo the challenge with
status 200 when `hub.mode === 'subscribe'` and `hub.verify_token` equals
the configured `META_CONFIG.VERIFY_TOKEN`, else answer 403.  Query
parameters are modelled as strings; the configured secret is a
parameter. -/
def verifyWebhook (secret mode token challenge : String) : HttpResponse :=
  if mode == "subscribe" && token == secret then ⟨200, some challenge⟩
  else ⟨403, none⟩

/-- Result of the detached `processWebhook(...)` promise (its rejection is
swallowed by the `.catch` handler in the controller). -/
inductive ProcResult
  | ok
  | error (msg : String)
deriving DecidableEq

/-- A raw webhook delivery body, reduced to the parts the controller hands
to processing. -/
structure WebhookBody where
  object : String
  messaging : List DMEvent
  changes : List CommentEvent
deriving DecidableEq

/-- `handleWebhook` from `webhookController.ts`: start processing without
awaiting it (the detached outcome is returned alongside, but the response
is built independently of it) and immediately answer 200 with the literal
body `EVENT_RECEIVED`; the catch block answers the same response. -/
def handleWebhook (process : WebhookBody → ProcResult) (body : WebhookBody) :
    HttpResponse × ProcResult :=
  (⟨200, some "EVENT_RECEIVED"⟩, process body)

/-- Overall result of a dispatch, as recorded in the report row. -/
inductive DispatchStatus
  | sent
  | failed
deriving DecidableEq

/-- One attempted send of a sequence step: the step, the instant the send
call was issued (after the step's delay) and the instant it completed. -/
structure SendAttempt where
  step : ResponseSequenceItem
  start : Nat
  finish : Nat
deriving DecidableEq

/-- Trace of a sequenced dispatch: the send attempts in issue order plus
the overall status. -/
structure SeqTrace where
  attempts : List SendAttempt
  status : DispatchStatus
deriving DecidableEq

/-- Modelled from the spec: the sequenced send protocol of the Response
Dispatcher.  The repository's `src/` holds the `ResponseSequenceItem`
declarations, the write-time sequence validation and the
`response_sequence` migration, but not the dispatcher code that executes
a sequence; this definition follows the spec's protocol: steps are
processed strictly in order, before step `i` the dispatcher suspends for
step `i`'s delay measured from completion of step `i-1`'s send call (step
0 from trigger time `now`), a failing send call aborts the remaining
steps with overall result `failed`, and if all steps succeed the overall
result is `sent`.  `oracle j = (ok, dur)` gives the success flag and
call duration of the `j`-th send call. -/
def runSequenceFrom (oracle : Nat → Bool × Nat) :
    Nat → Nat → List ResponseSequenceItem → SeqTrace
  | _, _, [] => ⟨[], .sent⟩
  | j, now, s :: rest =>
    let tStart := now + s.delay
    let r := oracle j
    let tFinish := tStart + r.2
    if r.1 then
      let tr := runSequenceFrom oracle (j + 1) tFinish rest
      ⟨⟨s, tStart, tFinish⟩ :: tr.attempts, tr.status⟩
    else ⟨[⟨s, tStart, tFinish⟩], .failed⟩

/-- Modelled from the spec: dispatch a whole response sequence starting at
trigger time 0, send calls numbered from 0. -/
def runSequence (oracle : Nat → Bool × Nat)
    (steps : List ResponseSequenceItem) : SeqTrace :=
  runSequenceFrom oracle 0 0 steps

/-! Helper lemmas about the matcher and the creation-time order. -/

lemma mem_insertDesc (x a : Automation) (l : List Automation) :
    x ∈ insertDesc a l ↔ x = a ∨ x ∈ l := by
  induction l with
  | nil => simp [insertDesc]
  | cons b rest ih =>
    by_cases h : b.createdAt ≤ a.createdAt
    · simp [insertDesc, h]
    · simp [insertDesc, h, ih]
      tauto

lemma mem_sortByCreatedDesc (x : Automation) (l : List Automation) :
    x ∈ sortByCreatedDesc l ↔ x ∈ l := by
  induction l with
  | nil => simp [sortByCreatedDesc]
  | cons a rest ih => simp [sortByCreatedDesc, mem_insertDesc, ih]

lemma pairwise_insertDesc (a : Automation) (l : List Automation)
    (h : l.Pairwise fun x y => y.createdAt ≤ x.createdAt) :
    (insertDesc a l).Pairwise fun x y => y.createdAt ≤ x.createdAt := by
  induction l with
  | nil => simp [insertDesc]
  | cons b rest ih =>
    rcases List.pairwise_cons.mp h with ⟨hb, hrest⟩
    by_cases hba : b.createdAt ≤ a.createdAt
    · rw [insertDesc, if_pos hba]
      refine List.pairwise_cons.mpr ⟨?_, h⟩
      intro y hy
      rcases List.mem_cons.mp hy with rfl | hy'
      · exact hba
      · exact le_trans (hb y hy') hba
    · rw [insertDesc, if_neg hba]
      refine List.pairwise_cons.mpr ⟨?_, ih hrest⟩
      intro y hy
      rcases (mem_insertDesc y a rest).mp hy with rfl | hy'
      · exact le_of_not_le hba
      · exact hb y hy'

lemma pairwise_sortByCreatedDesc (l : List Automation) :
    (sortByCreatedDesc l).Pairwise fun x y => y.createdAt ≤ x.createdAt := by
  induction l with
  | nil => simp [sortByCreatedDesc]
  | cons a rest ih => exact pairwise_insertDesc a _ ih

lemma mem_relevant (table : List Automation) (ty : InteractionType)
    (x : Automation) :
    x ∈ (getActiveByInstance table).filter (fun a => a.type == ty)
      ↔ x ∈ table ∧ x.isActive = true ∧ x.type = ty := by
  simp [getActiveByInstance, List.mem_filter, mem_sortByCreatedDesc,
    beq_iff_eq]
  tauto

lemma pairwise_relevant (table : List Automation) (ty : InteractionType) :
    ((getActiveByInstance table).filter (fun a => a.type == ty)).Pairwise
      (fun x y => y.createdAt ≤ x.createdAt) := by
  exact (pairwise_sortByCreatedDesc _).filter _

lemma scanForMatch_eq_none (l : List Automation) (text : String) :
    scanForMatch l text = none ↔ ∀ a ∈ l, automationMatches a text = false := by
  induction l with
  | nil => simp [scanForMatch]
  | cons a rest ih =>
    cases htr : a.triggerType with
    | all => simp [scanForMatch, htr, automationMatches]
    | keyword =>
      by_cases hk : keywordHit a.keywords text
      · simp [scanForMatch, htr, hk, automationMatches]
      · simp [scanForMatch, htr, hk, automationMatches, ih]

lemma scanForMatch_some (l : List Automation) (text : String) (c : Automation)
    (h : scanForMatch l text = some c) :
    c ∈ l ∧ automationMatches c text = true := by
  induction l with
  | nil => simp [scanForMatch] at h
  | cons a rest ih =>
    cases htr : a.triggerType with
    | all =>
      simp [scanForMatch, htr] at h
      subst h
      exact ⟨List.mem_cons_self a rest, by simp [automationMatches, htr]⟩
    | keyword =>
      by_cases hk : keywordHit a.keywords text
      · simp [scanForMatch, htr, hk] at h
        subst h
        exact ⟨List.mem_cons_self a rest, by simp [automationMatches, htr, hk]⟩
      · simp only [scanForMatch, htr, if_neg hk] at h
        rcases ih h with ⟨hmem, hmatch⟩
        exact ⟨List.mem_cons_of_mem a hmem, hmatch⟩

lemma scanForMatch_first {R : Automation → Automation → Prop}
    (l : List Automation) (text : String) (c : Automation)
    (h : scanForMatch l text = some c) (hp : l.Pairwise R) :
    ∀ x ∈ l, automationMatches x text = true → x = c ∨ R c x := by
  induction l with
  | nil => simp [scanForMatch] at h
  | cons a rest ih =>
    rcases List.pairwise_cons.mp hp with ⟨ha, hrest⟩
    intro x hx hmx
    cases htr : a.triggerType with
    | all =>
      simp [scanForMatch, htr] at h
      subst h
      rcases List.mem_cons.mp hx with rfl | hx'
      · exact Or.inl rfl
      · exact Or.inr (ha x hx')
    | keyword =>
      by_cases hk : keywordHit a.keywords text
      · simp [scanForMatch, htr, hk] at h
        subst h
        rcases List.mem_cons.mp hx with rfl | hx'
        · exact Or.inl rfl
        · exact Or.inr (ha x hx')
      · simp only [scanForMatch, htr, if_neg hk] at h
        rcases List.mem_cons.mp hx with rfl | hx'
        · exact absurd hmx (by simp [automationMatches, htr, hk])
        · exact ih h hrest x hx' hmx

/-- C2: for an active keyword-set automation of the event's interaction
kind, the matcher returns it iff the event text contains one of its
keywords as a case-insensitive substring (stated for the automation as
the channel's rule, where "returns that automation" is well defined);
in general any returned rule matches, a keyword hit on an active relevant
rule forces a match, and when every active rule of the kind is keyword-set
with no hit (so no match-all rule exists) the matcher returns none. -/
theorem keyword_match_iff (a : Automation) (table : List Automation)
    (ty : InteractionType) (text : String) (hact : a.isActive = true)
    (hty : a.type = ty) (htr : a.triggerType = .keyword) :
    (findMatchingAutomation [a] ty text = some a
      ↔ keywordHit a.keywords text = true)
    ∧ ((∀ b ∈ table, b.isActive = true → b.type = ty →
          b.triggerType = .keyword ∧ keywordHit b.keywords text = false) →
        findMatchingAutomation table ty text = none)
    ∧ (∀ c, findMatchingAutomation table ty text = some c →
        automationMatches c text = true)
    ∧ (a ∈ table → keywordHit a.keywords text = true →
        findMatchingAutomation table ty text ≠ none) := by
  subst hty
  refine ⟨?_, ?_, ?_, ?_⟩
  · by_cases hk : keywordHit a.keywords text
    · simp [findMatchingAutomation, getActiveByInstance, sortByCreatedDesc,
        insertDesc, scanForMatch, hact, htr, hk]
    · simp [findMatchingAutomation, getActiveByInstance, sortByCreatedDesc,
        insertDesc, scanForMatch, hact, htr, hk]
  · intro hall
    rw [findMatchingAutomation, scanForMatch_eq_none]
    intro b hb
    rcases (mem_relevant table a.type b).mp hb with ⟨hbt, hbact, hbty⟩
    rcases hall b hbt hbact hbty with ⟨hbtr, hbk⟩
    simp [automationMatches, hbtr, hbk]
  · intro c hc
    exact (scanForMatch_some _ _ _ hc).2
  · intro hmem hk hnone
    rw [findMatchingAutomation] at hnone
    have := (scanForMatch_eq_none _ _).mp hnone a
      ((mem_relevant table a.type a).mpr ⟨hmem, hact, rfl⟩)
    simp [automationMatches, htr, hk] at this

/-- C3: when two active rules of the same channel and interaction kind
both match the event (and they are the only matching active rules), the
matcher returns the one with the more recent creation time: the active
rules are scanned in creation-time-descending order and the first match
wins. -/
theorem most_recent_matching_rule_wins (table : List Automation)
    (ty : InteractionType) (text : String) (a b : Automation)
    (ha : a ∈ table) (hb : b ∈ table)
    (haact : a.isActive = true) (hbact : b.isActive = true)
    (haty : a.type = ty) (hbty : b.type = ty)
    (hma : automationMatches a text = true)
    (hmb : automationMatches b text = true)
    (hlt : b.createdAt < a.createdAt)
    (honly : ∀ x ∈ table, x.isActive = true → x.type = ty →
        automationMatches x text = true → x = a ∨ x = b) :
    findMatchingAutomation table ty text = some a := by
  have hamem : a ∈ (getActiveByInstance table).filter (fun x => x.type == ty) :=
    (mem_relevant table ty a).mpr ⟨ha, haact, haty⟩
  rcases hc : findMatchingAutomation table ty text with _ | c
  · exfalso
    rw [findMatchingAutomation] at hc
    have := (scanForMatch_eq_none _ _).mp hc a hamem
    rw [this] at hma
    exact Bool.false_ne_true hma
  · rw [findMatchingAutomation] at hc
    rcases scanForMatch_some _ _ _ hc with ⟨hcmem, hcmatch⟩
    rcases (mem_relevant table ty c).mp hcmem with ⟨hct, hcact, hcty⟩
    have hfirst := scanForMatch_first _ _ _ hc (pairwise_relevant table ty)
      a hamem hma
    rcases honly c hct hcact hcty hcmatch with rfl | rfl
    · rfl
    · rcases hfirst with rfl | hle
      · rfl
      · exact absurd hlt (not_lt.mpr hle)

/-! Behaviour of the sequenced send protocol. -/

lemma runSequenceFrom_spec (oracle : Nat → Bool × Nat)
    (steps : List ResponseSequenceItem) :
    ∀ (j now : Nat),
      ((runSequenceFrom oracle j now steps).attempts.map SendAttempt.step
          = steps.take (runSequenceFrom oracle j now steps).attempts.length)
      ∧ (∀ s0 ∈ (runSequenceFrom oracle j now steps).attempts.head?,
          s0.start = now + s0.step.delay)
      ∧ List.Chain' (fun x y => y.start = x.finish + y.step.delay)
          (runSequenceFrom oracle j now steps).attempts
      ∧ ((∀ k < steps.length, (oracle (j + k)).1 = true) →
          (runSequenceFrom oracle j now steps).status = .sent
          ∧ (runSequenceFrom oracle j now steps).attempts.length
              = steps.length)
      ∧ (∀ k < steps.length, (oracle (j + k)).1 = false →
          (∀ m < k, (oracle (j + m)).1 = true) →
          (runSequenceFrom oracle j now steps).status = .failed
          ∧ (runSequenceFrom oracle j now steps).attempts.length = k + 1) := by
  induction steps with
  | nil =>
    intro j now
    simp [runSequenceFrom]
  | cons s rest ih =>
    intro j now
    cases hor : (oracle j).1 with
    | false =>
      have hred : runSequenceFrom oracle j now (s :: rest)
          = ⟨[⟨s, now + s.delay, now + s.delay + (oracle j).2⟩], .failed⟩ := by
        simp [runSequenceFrom, hor]
      rw [hred]
      refine ⟨by simp, by simp, by simp, ?_, ?_⟩
      · intro hall
        have h0 := hall 0 (by simp)
        simp [hor] at h0
      · intro k hk hfalse hprev
        cases k with
        | zero => exact ⟨rfl, by simp⟩
        | succ k' =>
          have h0 := hprev 0 (Nat.succ_pos k')
          simp [hor] at h0
    | true =>
      have hred : runSequenceFrom oracle j now (s :: rest)
          = ⟨⟨s, now + s.delay, now + s.delay + (oracle j).2⟩ ::
              (runSequenceFrom oracle (j + 1)
                (now + s.delay + (oracle j).2) rest).attempts,
             (runSequenceFrom oracle (j + 1)
                (now + s.delay + (oracle j).2) rest).status⟩ := by
        simp [runSequenceFrom, hor]
      obtain ⟨ih1, ih2, ih3, ih4, ih5⟩ := ih (j + 1) (now + s.delay + (oracle j).2)
      rw [hred]
      refine ⟨?_, ?_, ?_, ?_, ?_⟩
      · simpa using ih1
      · intro s0 hs0
        simp at hs0
        subst hs0
        simp
      · rw [List.chain'_cons']
        refine ⟨?_, ih3⟩
        intro y hy
        simpa using ih2 y hy
      · intro hall
        have hrest : ∀ k < rest.length, (oracle (j + 1 + k)).1 = true := by
          intro k hk
          have h1 := hall (k + 1) (by simpa using Nat.succ_lt_succ hk)
          have heq : j + (k + 1) = j + 1 + k := by omega
          rwa [heq] at h1
        obtain ⟨h1, h2⟩ := ih4 hrest
        exact ⟨by simpa using h1, by simp [h2]⟩
      · intro k hk hfalse hprev
        cases k with
        | zero => simp [hor] at hfalse
        | succ k' =>
          have hk' : k' < rest.length := by
            simp at hk
            omega
          have hfalse' : (oracle (j + 1 + k')).1 = false := by
            have heq : j + (k' + 1) = j + 1 + k' := by omega
            rwa [heq] at hfalse
          have hprev' : ∀ m < k', (oracle (j + 1 + m)).1 = true := by
            intro m hm
            have h1 := hprev (m + 1) (by omega)
            have heq : j + (m + 1) = j + 1 + m := by omega
            rwa [heq] at h1
          obtain ⟨h1, h2⟩ := ih5 k' hk' hfalse' hprev'
          exact ⟨by simpa using h1, by simp [h2]⟩

/-- C1 (spec-modelled): dispatching a response sequence of 1-4 steps sends
the steps strictly in list order (the attempted steps are exactly a
prefix of the step list), the first send starts after step 0's delay,
every later send starts exactly at the completion of the previous send
call plus its own configured delay, if every send call succeeds all steps
are attempted and the overall result is `sent`, and if the first failing
send call is step `k` then exactly steps `0..k` are attempted — the
remaining steps never — and the overall result is `failed`. -/
theorem sequenced_dispatch_ordered_failfast (oracle : Nat → Bool × Nat)
    (steps : List ResponseSequenceItem)
    (hlen1 : 1 ≤ steps.length) (hlen4 : steps.length ≤ 4) :
    ((runSequence oracle steps).attempts.map SendAttempt.step
        = steps.take (runSequence oracle steps).attempts.length)
    ∧ (∀ s0 ∈ (runSequence oracle steps).attempts.head?,
        s0.start = s0.step.delay)
    ∧ List.Chain' (fun x y => y.start = x.finish + y.step.delay)
        (runSequence oracle steps).attempts
    ∧ ((∀ k < steps.length, (oracle k).1 = true) →
        (runSequence oracle steps).status = .sent
        ∧ (runSequence oracle steps).attempts.length = steps.length)
    ∧ (∀ k < steps.length, (oracle k).1 = false →
        (∀ m < k, (oracle m).1 = true) →
        (runSequence oracle steps).status = .failed
        ∧ (runSequence oracle steps).attempts.length = k + 1) := by
  obtain ⟨h1, h2, h3, h4, h5⟩ := runSequenceFrom_spec oracle steps 0 0
  refine ⟨h1, ?_, h3, ?_, ?_⟩
  · intro s0 hs0
    simpa using h2 s0 hs0
  · intro hall
    refine h4 ?_
    intro k hk
    simpa using hall k hk
  · intro k hk hf hp
    refine h5 k hk (by simpa using hf) ?_
    intro m hm
    simpa using hp m hm

/-- Witness for C1 at the spec's own example, steps
`[(text, A, 0), (text, B, 2)]` with every send call succeeding: the
overall result is `sent`. -/
theorem sequenced_dispatch_ordered_failfast_witness :
    (runSequence (fun _ => (true, 1))
        [⟨.text, "A", 0⟩, ⟨.text, "B", 2⟩]).status = .sent :=
  ((sequenced_dispatch_ordered_failfast (fun _ => (true, 1))
      [⟨.text, "A", 0⟩, ⟨.text, "B", 2⟩] (by decide) (by decide)).2.2.2.1
    (fun _ _ => rfl)).1

/-- Witness for C2: a keyword rule with keyword `promo` is returned for
the text `Send PROMO please` (case-insensitive substring hit). -/
theorem keyword_match_iff_witness :
    findMatchingAutomation
        [⟨1, .dm, .keyword, ["promo"], "hi", .direct, none, 5, true⟩]
        .dm "Send PROMO please"
      = some ⟨1, .dm, .keyword, ["promo"], "hi", .direct, none, 5, true⟩ :=
  (keyword_match_iff ⟨1, .dm, .keyword, ["promo"], "hi", .direct, none, 5, true⟩
    [] .dm "Send PROMO please" rfl rfl rfl).1.mpr (by decide)

/-- Witness for C3: with an older match-all rule (creation time 5) and a
newer keyword rule (creation time 10) both matching, the newer rule is
returned. -/
theorem most_recent_matching_rule_wins_witness :
    findMatchingAutomation
        [⟨1, .dm, .all, [], "old", .direct, none, 5, true⟩,
         ⟨2, .dm, .keyword, ["promo"], "new", .direct, none, 10, true⟩]
        .dm "promo please"
      = some ⟨2, .dm, .keyword, ["promo"], "new", .direct, none, 10, true⟩ :=
  most_recent_matching_rule_wins
    [⟨1, .dm, .all, [], "old", .direct, none, 5, true⟩,
     ⟨2, .dm, .keyword, ["promo"], "new", .direct, none, 10, true⟩]
    .dm "promo please"
    ⟨2, .dm, .keyword, ["promo"], "new", .direct, none, 10, true⟩
    ⟨1, .dm, .all, [], "old", .direct, none, 5, true⟩
    (by decide) (by decide) rfl rfl rfl rfl (by decide) (by decide)
    (by decide) (by decide)

/-- C4: when no active automation matches the event's interaction kind
and text, processing writes zero report rows and performs zero outbound
send calls, for direct messages and comments alike; the event row itself
is still inserted. -/
theorem no_match_no_report_no_send (autosTable : List Automation)
    (tokenOpt : Option String) (msgTable : List MessageRow)
    (comTable : List CommentRow) (instanceId : String)
    (evd : DMEvent) (evc : CommentEvent) (sendOk : Bool)
    (sd md cid ctext : String)
    (hs : evd.senderId = some sd) (hm : evd.mid = some md)
    (hc : evc.commentId = some cid) (hct : evc.text = some ctext)
    (hnd : findMatchingAutomation autosTable .dm evd.text = none)
    (hnc : findMatchingAutomation autosTable .comment ctext = none) :
    (processDirectMessage autosTable tokenOpt msgTable instanceId evd
        sendOk).reports = []
    ∧ (processDirectMessage autosTable tokenOpt msgTable instanceId evd
        sendOk).sends = []
    ∧ (processDirectMessage autosTable tokenOpt msgTable instanceId evd
        sendOk).messages
        = insertMessageRow msgTable ⟨instanceId, md, sd, evd.text, false⟩
    ∧ (processComment autosTable tokenOpt comTable instanceId evc
        sendOk).reports = []
    ∧ (processComment autosTable tokenOpt comTable instanceId evc
        sendOk).sends = []
    ∧ (processComment autosTable tokenOpt comTable instanceId evc
        sendOk).comments
        = insertCommentRow comTable
            ⟨instanceId, cid, evc.mediaId.getD "", evc.fromUserId,
             evc.fromUsername, ctext, false, none⟩ := by
  simp [processDirectMessage, processComment, hs, hm, hc, hct, hnd, hnc]

/-- Witness for C4: an event whose text hits no keyword of the only
(keyword-set) automation produces no report and no send. -/
theorem no_match_no_report_no_send_witness :
    (processDirectMessage
        [⟨1, .dm, .keyword, ["promo"], "hi", .direct, none, 5, true⟩]
        none [] "inst" ⟨some "u", some "mid1", "hello", false, 0⟩
        true).reports = [] :=
  (no_match_no_report_no_send
    [⟨1, .dm, .keyword, ["promo"], "hi", .direct, none, 5, true⟩]
    none [] [] "inst" ⟨some "u", some "mid1", "hello", false, 0⟩
    ⟨some "c1", some "hello", none, "u2", "bob"⟩ true
    "u" "mid1" "c1" "hello" rfl rfl rfl rfl (by decide) (by decide)).1

/-- C5: the event inserts are idempotent on their natural keys —
re-inserting a message row with the same (message id, instance id) pair,
or a comment row with the same comment id, leaves the table unchanged. -/
theorem duplicate_insert_noop (mt : List MessageRow) (m m2 : MessageRow)
    (h1 : m2.messageId = m.messageId) (h2 : m2.instanceId = m.instanceId)
    (ct : List CommentRow) (c c2 : CommentRow)
    (h3 : c2.commentId = c.commentId) :
    insertMessageRow (insertMessageRow mt m) m2 = insertMessageRow mt m
    ∧ insertCommentRow (insertCommentRow ct c) c2 = insertCommentRow ct c := by
  constructor
  · by_cases h : (mt.any fun x =>
        x.messageId == m.messageId && x.instanceId == m.instanceId) = true
    · have e1 : insertMessageRow mt m = mt := by
        rw [insertMessageRow, if_pos h]
      rw [e1, insertMessageRow, if_pos (by simp only [h1, h2]; exact h)]
    · have e1 : insertMessageRow mt m = mt ++ [m] := by
        rw [insertMessageRow, if_neg h]
      rw [e1, insertMessageRow, if_pos (by simp [h1, h2])]
  · by_cases h : (ct.any fun x => x.commentId == c.commentId) = true
    · have e1 : insertCommentRow ct c = ct := by
        rw [insertCommentRow, if_pos h]
      rw [e1, insertCommentRow, if_pos (by simp only [h3]; exact h)]
    · have e1 : insertCommentRow ct c = ct ++ [c] := by
        rw [insertCommentRow, if_neg h]
      rw [e1, insertCommentRow, if_pos (by simp [h3])]

/-- Witness for C5: re-inserting a concrete message row and comment row
changes nothing. -/
theorem duplicate_insert_noop_witness :
    insertMessageRow
        (insertMessageRow [] ⟨"inst", "mid1", "u", "hi", false⟩)
        ⟨"inst", "mid1", "u", "hi again", true⟩
      = insertMessageRow [] ⟨"inst", "mid1", "u", "hi", false⟩ :=
  (duplicate_insert_noop [] ⟨"inst", "mid1", "u", "hi", false⟩
    ⟨"inst", "mid1", "u", "hi again", true⟩ rfl rfl
    [] ⟨"inst", "c1", "p", "u", "bob", "t", false, none⟩
    ⟨"inst", "c1", "p", "u", "bob", "t2", false, none⟩ rfl).1

/-- C6: a messaging event flagged as self-echo is skipped before any
processing — the matcher is never invoked, no send is performed, no
report row is written, and the message table is untouched. -/
theorem echo_event_never_processed (autosTable : List Automation)
    (tokenOpt : Option String) (msgTable : List MessageRow)
    (instanceId : String) (ev : DMEvent) (sendOk : Bool)
    (h : ev.isEcho = true) :
    processMessagingEvent autosTable tokenOpt msgTable instanceId ev sendOk
      = ⟨msgTable, [], [], false⟩ := by
  simp [processMessagingEvent, h]

/-- Witness for C6 at a concrete echo event. -/
theorem echo_event_never_processed_witness :
    processMessagingEvent
        [⟨1, .dm, .all, [], "hi", .direct, none, 5, true⟩]
        (some "tok") [] "inst" ⟨some "u", some "mid1", "hello", true, 0⟩ true
      = ⟨[], [], [], false⟩ :=
  echo_event_never_processed
    [⟨1, .dm, .all, [], "hi", .direct, none, 5, true⟩]
    (some "tok") [] "inst" ⟨some "u", some "mid1", "hello", true, 0⟩ true rfl

/-- C7 counterexample: with the correct verify token but a mode flag
other than `subscribe`, the handshake answers 403, so "responds 200 with
the challenge iff the token equals the secret" is false as stated. -/
theorem verify_webhook_token_only_iff_fails :
    ¬ ((verifyWebhook "s3cret" "unsubscribe" "s3cret" "xyz123"
          = ⟨200, some "xyz123"⟩) ↔ ("s3cret" : String) = "s3cret") := by
  decide

/-- C7 amended: the handshake responds 200 with the challenge echoed back
iff the mode flag equals `subscribe` and the verify token equals the
configured secret; otherwise it responds 403 with no echoed body. -/
theorem verify_webhook_mode_and_token (secret mode token challenge : String) :
    (verifyWebhook secret mode token challenge = ⟨200, some challenge⟩
      ↔ (mode = "subscribe" ∧ token = secret))
    ∧ (¬ (mode = "subscribe" ∧ token = secret) →
        verifyWebhook secret mode token challenge = ⟨403, none⟩) := by
  by_cases hm : mode = "subscribe"
  · by_cases ht : token = secret
    · simp [verifyWebhook, hm, ht]
    · simp [verifyWebhook, hm, ht]
  · simp [verifyWebhook, hm]

/-- Witness for C7 (amended): correct mode and token with challenge
`xyz123` yield 200 with body `xyz123`. -/
theorem verify_webhook_mode_and_token_witness :
    verifyWebhook "s3cret" "subscribe" "s3cret" "xyz123"
      = ⟨200, some "xyz123"⟩ :=
  (verify_webhook_mode_and_token "s3cret" "subscribe" "s3cret" "xyz123").1.mpr
    ⟨rfl, rfl⟩

/-- C8: the webhook POST handler answers 200 with the fixed literal body
`EVENT_RECEIVED` for every body and every outcome of the detached
processing, and the response is independent of the processing function —
it does not await the asynchronous processing. -/
theorem webhook_post_always_acks (process : WebhookBody → ProcResult)
    (body : WebhookBody) :
    (handleWebhook process body).1 = ⟨200, some "EVENT_RECEIVED"⟩
    ∧ ∀ process2 : WebhookBody → ProcResult,
        (handleWebhook process body).1 = (handleWebhook process2 body).1 :=
  ⟨rfl, fun _ => rfl⟩

/-- C9: for a matched event whose automation actually attempts a send
(`responseType === 'direct'` for a direct message; anything the comment
processor's branches handle for a comment), exactly one report row is
written: with status `failed` when the send call throws, and with status
`sent` when it succeeds. -/
theorem matched_dispatch_exactly_one_report (autosTable : List Automation)
    (tok : String) (msgTable : List MessageRow) (comTable : List CommentRow)
    (instanceId : String) (evd : DMEvent) (evc : CommentEvent)
    (sendOk : Bool) (sd md cid ctext : String) (a b : Automation)
    (hs : evd.senderId = some sd) (hm : evd.mid = some md)
    (hma : findMatchingAutomation autosTable .dm evd.text = some a)
    (hra : a.responseType = .direct)
    (hc : evc.commentId = some cid) (hct : evc.text = some ctext)
    (hmb : findMatchingAutomation autosTable .comment ctext = some b)
    (hrb : b.responseType ≠ .comment_and_dm) :
    (processDirectMessage autosTable (some tok) msgTable instanceId evd
        sendOk).reports
      = [⟨.dm, none, sd, evd.text, a.responseText,
          if sendOk then .sent else .failed⟩]
    ∧ (processComment autosTable (some tok) comTable instanceId evc
        sendOk).reports
      = [⟨.comment, some cid, evc.fromUserId, ctext, b.responseText,
          if sendOk then .sent else .failed⟩] := by
  constructor
  · cases sendOk <;> simp [processDirectMessage, hs, hm, hma, hra]
  · cases hb : b.responseType with
    | direct => cases sendOk <;> simp [processComment, hc, hct, hmb, hb]
    | comment => cases sendOk <;> simp [processComment, hc, hct, hmb, hb]
    | comment_and_dm => exact absurd hb hrb

/-- Witness for C9: a match-all DM rule and a reply-in-place comment rule
each produce exactly one `sent` report on a successful send. -/
theorem matched_dispatch_exactly_one_report_witness :
    (processDirectMessage
        [⟨1, .dm, .all, [], "reply", .direct, none, 5, true⟩,
         ⟨2, .comment, .all, [], "creply", .comment, none, 6, true⟩]
        (some "tok") [] "inst" ⟨some "u", some "mid1", "hi", false, 0⟩
        true).reports
      = [⟨.dm, none, "u", "hi", "reply", if true then .sent else .failed⟩] :=
  (matched_dispatch_exactly_one_report
    [⟨1, .dm, .all, [], "reply", .direct, none, 5, true⟩,
     ⟨2, .comment, .all, [], "creply", .comment, none, 6, true⟩]
    "tok" [] [] "inst" ⟨some "u", some "mid1", "hi", false, 0⟩
    ⟨some "c1", some "nice", none, "u2", "bob"⟩ true
    "u" "mid1" "c1" "nice"
    ⟨1, .dm, .all, [], "reply", .direct, none, 5, true⟩
    ⟨2, .comment, .all, [], "creply", .comment, none, 6, true⟩
    rfl rfl (by decide) rfl rfl rfl (by decide) (by decide)).1

/-- C10: a matched automation whose `responseType` falls outside the
dispatch branches (not `'direct'` in the DM processor; the
`'comment_and_dm'` value that the database constraint permits in the
comment processor) triggers no outbound send call, yet a report row with
status `sent` is still written and the stored event is marked replied. -/
theorem unhandled_response_type_still_reports_sent
    (autosTable : List Automation) (tok : String)
    (msgTable : List MessageRow) (comTable : List CommentRow)
    (instanceId : String) (evd : DMEvent) (evc : CommentEvent)
    (sendOk : Bool) (sd md cid ctext : String) (a b : Automation)
    (hs : evd.senderId = some sd) (hm : evd.mid = some md)
    (hma : findMatchingAutomation autosTable .dm evd.text = some a)
    (hra : a.responseType ≠ .direct)
    (hc : evc.commentId = some cid) (hct : evc.text = some ctext)
    (hmb : findMatchingAutomation autosTable .comment ctext = some b)
    (hrb : b.responseType = .comment_and_dm) :
    (processDirectMessage autosTable (some tok) msgTable instanceId evd
        sendOk).sends = []
    ∧ (processDirectMessage autosTable (some tok) msgTable instanceId evd
        sendOk).reports
        = [⟨.dm, none, sd, evd.text, a.responseText, .sent⟩]
    ∧ (processDirectMessage autosTable (some tok) msgTable instanceId evd
        sendOk).messages
        = markMessageReplied
            (insertMessageRow msgTable ⟨instanceId, md, sd, evd.text, false⟩)
            md instanceId
    ∧ (processComment autosTable (some tok) comTable instanceId evc
        sendOk).sends = []
    ∧ (processComment autosTable (some tok) comTable instanceId evc
        sendOk).reports
        = [⟨.comment, some cid, evc.fromUserId, ctext, b.responseText, .sent⟩]
    ∧ (processComment autosTable (some tok) comTable instanceId evc
        sendOk).comments
        = markCommentReplied
            (insertCommentRow comTable
              ⟨instanceId, cid, evc.mediaId.getD "", evc.fromUserId,
               evc.fromUsername, ctext, false, none⟩)
            b.responseText cid := by
  have hra2 : (a.responseType == ResponseType.direct) = false := by
    simp [beq_iff_eq, hra]
  simp [processDirectMessage, processComment, hs, hm, hma, hc, hct, hmb,
    hra2, hrb]

/-- Witness for C10: a DM rule with `responseType = 'comment'` and a
comment rule with `responseType = 'comment_and_dm'` both produce a `sent`
report with no send call. -/
theorem unhandled_response_type_still_reports_sent_witness :
    (processDirectMessage
        [⟨1, .dm, .all, [], "reply", .comment, none, 5, true⟩,
         ⟨2, .comment, .all, [], "creply", .comment_and_dm, none, 6, true⟩]
        (some "tok") [] "inst" ⟨some "u", some "mid1", "hi", false, 0⟩
        false).sends = [] :=
  (unhandled_response_type_still_reports_sent
    [⟨1, .dm, .all, [], "reply", .comment, none, 5, true⟩,
     ⟨2, .comment, .all, [], "creply", .comment_and_dm, none, 6, true⟩]
    "tok" [] [] "inst" ⟨some "u", some "mid1", "hi", false, 0⟩
    ⟨some "c1", some "nice", none, "u2", "bob"⟩ false
    "u" "mid1" "c1" "nice"
    ⟨1, .dm, .all, [], "reply", .comment, none, 5, true⟩
    ⟨2, .comment, .all, [], "creply", .comment_and_dm, none, 6, true⟩
    rfl rfl (by decide) (by decide) rfl rfl (by decide) rfl).1

end InstaClerky
